import Mathlib

/-!
# RFID scanner contract (`rfidapp.hpp`): records and their reset operations

A shallow embedding of the data structures declared in `rfidapp.hpp`
(`scandata`, `stats`, `scanner`) together with the member functions the header
defines on them (`scandata::reset`, `stats::reset`, `scanner::scanner`,
`scanner::reset_state`, `scanner::primary_key`).

* `uint32_t`, `uint64_t` (`account_name`) and `uint8_t` values are natural numbers.
* `double` is an IEEE 754 binary64 value given by its three bit fields.
* `std::vector<T>` is `List T`.

The bodies of the actions (`submit`, `reset`, `newscanner`, ...) are only declared
in the header; `submit` and the statistics update are modelled separately.
-/

namespace Rfid

/-! ## IEEE 754 binary64 -/

/-- An IEEE 754 binary64 value: sign bit, 11-bit biased exponent, 52-bit fraction. -/
structure Double where
  sign : Bool
  exponent : Fin 2048
  mantissa : Fin 4503599627370496
  deriving DecidableEq, Repr

namespace Double

/-- The constant `0.0`. -/
def zero : Double := ⟨false, 0, 0⟩

/-- The constant `HUGE_VAL` of `<math.h>`: positive infinity. -/
def HUGE_VAL : Double := ⟨false, 2047, 0⟩

/-- Not-a-number: all exponent bits set, fraction non-zero. -/
def isNaN (x : Double) : Bool := x.exponent.val == 2047 && x.mantissa.val != 0

/-- Plus or minus infinity: all exponent bits set, fraction zero. -/
def isInf (x : Double) : Bool := x.exponent.val == 2047 && x.mantissa.val == 0

/-- Neither an infinity nor a NaN. -/
def isFinite (x : Double) : Bool := decide (x.exponent.val < 2047)

/-- The magnitude bits read as an integer, negated when the sign bit is set.
On non-NaN values this integer is ordered exactly like the values themselves
(and `+0.0` and `-0.0` both map to `0`). -/
def key (x : Double) : Int :=
  let m : Int := ((x.exponent.val * 4503599627370496 + x.mantissa.val : Nat) : Int)
  if x.sign then -m else m

/-- The comparison `a < b` of C++ on doubles: false whenever an operand is a NaN. -/
def lt (a b : Double) : Bool :=
  if a.isNaN || b.isNaN then false else decide (a.key < b.key)

/-- Position of the leading one bit of `m` (`0` for `m < 2`), found in at most
`fuel` halvings. -/
def leadingBit : Nat → Nat → Nat
  | 0, _ => 0
  | fuel + 1, m => if m < 2 then 0 else leadingBit fuel (m / 2) + 1

/-- Conversion of an integer to `double`; exact for every integer of magnitude
below `2^53`, hence for every difference of two `uint32_t` values. -/
def ofInt (n : Int) : Double :=
  if n = 0 then zero
  else
    let m := n.natAbs
    let e := leadingBit 64 m
    { sign := decide (n < 0)
      exponent := ⟨(1023 + e) % 2048, Nat.mod_lt _ (by decide)⟩
      mantissa := ⟨(m * 2 ^ (52 - e)) % 4503599627370496, Nat.mod_lt _ (by decide)⟩ }

end Double

/-! ## Records of `rfidapp.hpp` -/

/-- The record `struct scandata`: one scanned tag. -/
structure scandata where
  scan_time : Nat
  recv_time : Nat
  dev_id : Nat
  tag_id : List Nat
  deriving DecidableEq, Repr

/-- The member function `scandata::reset`. -/
def scandata.reset (d : scandata) : scandata :=
  { d with scan_time := 0, recv_time := 0, dev_id := 0, tag_id := [] }

/-- The record `struct stats`: latency statistics. -/
structure stats where
  min : Double
  max : Double
  var : Double
  mean : Double
  deriving DecidableEq, Repr

/-- The member function `stats::reset`. -/
def stats.reset (st : stats) : stats :=
  { st with min := Double.HUGE_VAL, max := Double.zero, var := Double.zero, mean := Double.zero }

/-- The record `struct scanner`: the row of the `scanners` table kept for one account. -/
structure scanner where
  name : Nat
  latency_stats : stats
  scan_data : List scandata
  num_transactions : Nat
  time_first_tx_s : Nat
  time_last_tx_s : Nat
  deriving DecidableEq, Repr

/-- The member function `scanner::reset_state`. -/
def scanner.reset_state (s : scanner) : scanner :=
  { s with
    latency_stats := s.latency_stats.reset
    scan_data := []
    num_transactions := 0
    time_first_tx_s := 0
    time_last_tx_s := 0 }

/-- The constructor `scanner::scanner()`: the members are default-initialised (`scan_data` to the
empty vector, the scalar members to whatever the storage `raw` holds) and the body
then runs `reset_state`. -/
def scanner.ctor (raw : scanner) : scanner :=
  scanner.reset_state { raw with scan_data := [] }

/-- The member function `scanner::primary_key`. -/
def scanner.primary_key (s : scanner) : Nat := s.name

/-! ## The statistics update and `submit`

`rfidapp.hpp` only declares `submit`; its body and the update of the latency
statistics are not part of the header. They are modelled here from the
specification of the contract. -/

/-- Modelled from the spec: the error kinds of the operations on a scanner log
(section 7); the header declares none. -/
inductive Error where
  | AlreadyExists
  | NotFound
  | Unauthorized
  | InvalidTagLength
  deriving DecidableEq, Repr

/-- The floating-point arithmetic of the running mean and variance, which the
specification leaves open ("an online algorithm, e.g. Welford's method"): each
function receives the statistics so far, the number of samples already
incorporated, and the new sample. -/
structure Estimator where
  mean : stats → Nat → Double → Double
  var : stats → Nat → Double → Double

/-- Modelled from the spec: the body of the statistics update, which the header
does not contain. `min` and `max` become the smallest and largest sample observed;
`mean` and `var` are advanced by the online estimator. -/
def stats.update (E : Estimator) (st : stats) (n : Nat) (x : Double) : stats :=
  { min := if Double.lt x st.min then x else st.min
    max := if Double.lt st.max x then x else st.max
    var := E.var st n x
    mean := E.mean st n x }

/-- Outcome of `submit`: the error raised, if any, and the log afterwards. -/
structure SubmitResult where
  err : Option Error
  log : scanner
  deriving DecidableEq, Repr

/-- Modelled from the spec: the body of `rfidapp::submit` on the log of one
account, which the header only declares. `CAP` is the capacity of the FIFO and
`recv_time` the platform time at which the call is received. The tag length is
validated first; then the latency `recv_time - scan_time` is fed to the statistics,
the event at index 0 is evicted if the FIFO holds `CAP` events, the new event is
appended, `num_transactions` (a `uint32_t`) is incremented, `time_first_tx_s` is
set on the very first submission only and `time_last_tx_s` is set to `recv_time`. -/
def submit (CAP : Nat) (E : Estimator) (s : scanner)
    (device_id scan_time recv_time : Nat) (tag_uid : List Nat) : SubmitResult :=
  if tag_uid.length ≠ 7 then
    { err := some Error.InvalidTagLength, log := s }
  else
    let latency := Double.ofInt ((recv_time : Int) - (scan_time : Int))
    let ev : scandata :=
      { scan_time := scan_time, recv_time := recv_time, dev_id := device_id, tag_id := tag_uid }
    let kept := if s.scan_data.length = CAP then s.scan_data.eraseIdx 0 else s.scan_data
    { err := none
      log :=
        { name := s.name
          latency_stats := s.latency_stats.update E s.num_transactions latency
          scan_data := kept ++ [ev]
          num_transactions := (s.num_transactions + 1) % 4294967296
          time_first_tx_s := if s.num_transactions = 0 then recv_time else s.time_first_tx_s
          time_last_tx_s := recv_time } }

/-- The arguments of one `submit` call. -/
structure Call where
  device_id : Nat
  scan_time : Nat
  recv_time : Nat
  tag_uid : List Nat
  deriving DecidableEq, Repr

/-- The event a call stores when it is accepted. -/
def Call.event (c : Call) : scandata :=
  { scan_time := c.scan_time, recv_time := c.recv_time, dev_id := c.device_id, tag_id := c.tag_uid }

/-- A call passes the validation of `submit`. -/
def Call.accepted (c : Call) : Bool := decide (c.tag_uid.length = 7)

/-- The log after a sequence of `submit` calls, made one after the other. -/
def run (CAP : Nat) (E : Estimator) (s : scanner) : List Call → scanner
  | [] => s
  | c :: cs =>
    run CAP E (submit CAP E s c.device_id c.scan_time c.recv_time c.tag_uid).log cs

/-- The events of the accepted calls of a sequence, in arrival order. -/
def arrivals (cs : List Call) : List scandata :=
  (cs.filter Call.accepted).map Call.event

/-- The last `n` elements of a list, in order. -/
def mostRecent {α : Type} (n : Nat) (l : List α) : List α :=
  l.drop (l.length - n)

/-- An estimator that keeps `mean` and `var` as they are; used to evaluate the
model on concrete inputs. -/
def Estimator.frozen : Estimator :=
  { mean := fun st _ _ => st.mean, var := fun st _ _ => st.var }

/-- The scanner records obtained from a newly constructed one by the operations
on a scanner log: the constructor and `reset_state` of the header, and `submit`.
`Reachable CAP E n s` says that `s` is reached at capacity `CAP` and that `n`
calls of `submit` were accepted since the construction or the last reset. -/
inductive Reachable (CAP : Nat) (E : Estimator) : Nat → scanner → Prop where
  | ctor (raw : scanner) : Reachable CAP E 0 (scanner.ctor raw)
  | reset_state (n : Nat) (s : scanner) : Reachable CAP E n s → Reachable CAP E 0 s.reset_state
  | submit (n : Nat) (s : scanner) (c : Call) : Reachable CAP E n s →
      Reachable CAP E (if c.accepted = true then n + 1 else n)
        (submit CAP E s c.device_id c.scan_time c.recv_time c.tag_uid).log

/-! ## Concrete values used to evaluate the definitions -/

/-- The value `-1.0`. -/
def Double.negOne : Double := ⟨true, 1023, 0⟩

/-- A NaN. -/
def Double.someNaN : Double := ⟨false, 2047, 1⟩

/-- Statistics holding an infinity and NaNs. -/
def sampleStats : stats :=
  { min := Double.someNaN, max := Double.HUGE_VAL, var := Double.negOne, mean := Double.someNaN }

/-- A seven-byte tag. -/
def sampleTag : List Nat := [4, 18, 52, 86, 120, 154, 188]

/-- A log in use: two events stored, five transactions counted. -/
def sampleScanner : scanner :=
  { name := 42
    latency_stats := sampleStats
    scan_data := [⟨100, 103, 1, sampleTag⟩, ⟨110, 111, 2, sampleTag⟩]
    num_transactions := 5
    time_first_tx_s := 50
    time_last_tx_s := 111 }

/-- Another log of the same account with different contents. -/
def otherScanner : scanner :=
  { name := 42
    latency_stats := sampleStats.reset
    scan_data := [⟨7, 9, 3, sampleTag⟩]
    num_transactions := 1
    time_first_tx_s := 9
    time_last_tx_s := 9 }

/-- Five calls, the third with a tag of the wrong length. -/
def sampleCalls : List Call :=
  [⟨1, 0, 10, sampleTag⟩, ⟨1, 0, 20, sampleTag⟩, ⟨1, 0, 25, [1, 2, 3]⟩,
   ⟨2, 0, 30, sampleTag⟩, ⟨2, 0, 40, sampleTag⟩]

/-- One accepted call: device 1, scanned at time 0, received at time 10. -/
def sampleCall : Call := ⟨1, 0, 10, sampleTag⟩

/-- The log of account 42 at capacity 1 after `k + 1` submissions of `sampleCall`
to a newly constructed scanner, with `mean` and `var` kept as they are. -/
def repeatedLog (k : Nat) : scanner :=
  { name := 42
    latency_stats :=
      { min := Double.ofInt 10, max := Double.ofInt 10, var := Double.zero, mean := Double.zero }
    scan_data := [sampleCall.event]
    num_transactions := (k + 1) % 4294967296
    time_first_tx_s := 10
    time_last_tx_s := 10 }

/-! ## Properties of the reset operations -/

/-- C5: for every `stats` value, whatever its fields hold (infinities and NaNs
included), `stats::reset` yields `min = HUGE_VAL`, which is positive infinity,
`max = 0`, `mean = 0` and `var = 0`. -/
theorem stats_reset_values (st : stats) :
    st.reset.min = Double.HUGE_VAL ∧ st.reset.max = Double.zero ∧
    st.reset.mean = Double.zero ∧ st.reset.var = Double.zero ∧
    Double.HUGE_VAL.isInf = true ∧ Double.HUGE_VAL.sign = false := by
  refine ⟨rfl, rfl, rfl, rfl, ?_, rfl⟩
  decide

/-- C1: for every scanner record, after `scanner::reset_state` the record has an
empty `scan_data`, `num_transactions`, `time_first_tx_s` and `time_last_tx_s` equal
to zero, and `latency_stats` equal to min = +infinity, max = 0, mean = 0, var = 0;
these are the values a read of the record returns. -/
theorem reset_state_clears (s : scanner) :
    s.reset_state.scan_data = [] ∧ s.reset_state.num_transactions = 0 ∧
    s.reset_state.time_first_tx_s = 0 ∧ s.reset_state.time_last_tx_s = 0 ∧
    s.reset_state.latency_stats =
      { min := Double.HUGE_VAL, max := Double.zero, var := Double.zero, mean := Double.zero } :=
  ⟨rfl, rfl, rfl, rfl, rfl⟩

/-- C6: a newly constructed scanner record is an empty log: `scan_data` is empty,
the three counters are zero and `latency_stats` holds its initial values; every
field other than `name` equals that of any record after `reset_state`. -/
theorem ctor_is_empty_log (raw : scanner) :
    (scanner.ctor raw).scan_data = [] ∧ (scanner.ctor raw).num_transactions = 0 ∧
    (scanner.ctor raw).time_first_tx_s = 0 ∧ (scanner.ctor raw).time_last_tx_s = 0 ∧
    (scanner.ctor raw).latency_stats =
      { min := Double.HUGE_VAL, max := Double.zero, var := Double.zero, mean := Double.zero } ∧
    ∀ s : scanner,
      (scanner.ctor raw).scan_data = s.reset_state.scan_data ∧
      (scanner.ctor raw).num_transactions = s.reset_state.num_transactions ∧
      (scanner.ctor raw).time_first_tx_s = s.reset_state.time_first_tx_s ∧
      (scanner.ctor raw).time_last_tx_s = s.reset_state.time_last_tx_s ∧
      (scanner.ctor raw).latency_stats = s.reset_state.latency_stats :=
  ⟨rfl, rfl, rfl, rfl, rfl, fun _ => ⟨rfl, rfl, rfl, rfl, rfl⟩⟩

/-- C7: `scanner::reset_state` leaves the account field `name` unchanged, so
`primary_key()` returns the same key before and after the reset. -/
theorem reset_state_keeps_name (s : scanner) :
    s.reset_state.name = s.name ∧ s.reset_state.primary_key = s.primary_key :=
  ⟨rfl, rfl⟩

/-- C10: the result of `scanner::reset_state` depends only on the account name:
two records with the same `name` are equal after the reset. -/
theorem reset_state_depends_only_on_name (s1 s2 : scanner) (h : s1.name = s2.name) :
    s1.reset_state = s2.reset_state := by
  simp [scanner.reset_state, stats.reset, h]

/-- Witness for C10: two logs of account 42 with different events, statistics and
counters are equal after the reset. -/
theorem reset_state_depends_only_on_name_witness :
    sampleScanner.name = otherScanner.name ∧ sampleScanner ≠ otherScanner ∧
    sampleScanner.reset_state = otherScanner.reset_state :=
  ⟨rfl, by decide, reset_state_depends_only_on_name sampleScanner otherScanner rfl⟩

/-- C8, as the claim states it, fails: `scandata::reset` applied to a scandata
whose `tag_id` has length 7 yields one whose `tag_id` has length 0. -/
theorem scandata_reset_breaks_tag_length :
    (scandata.mk 100 103 1 sampleTag).tag_id.length = 7 ∧
    (scandata.mk 100 103 1 sampleTag).reset.tag_id.length = 0 ∧
    (scandata.mk 100 103 1 sampleTag).reset.tag_id.length ≠ 7 := by
  decide

/-- C8, amended: the one operation the header defines on `scandata`, `reset`,
yields for every scandata a record with `scan_time`, `recv_time` and `dev_id`
zero and an empty `tag_id`, of length 0. -/
theorem scandata_reset_blank (d : scandata) :
    d.reset.scan_time = 0 ∧ d.reset.recv_time = 0 ∧ d.reset.dev_id = 0 ∧
    d.reset.tag_id = [] ∧ d.reset.tag_id.length = 0 :=
  ⟨rfl, rfl, rfl, rfl, rfl⟩

/-! ## The first sample after a reset -/

/-- Every finite double compares below `HUGE_VAL`. -/
theorem Double.lt_HUGE_VAL_of_isFinite (x : Double) (hx : x.isFinite = true) :
    Double.lt x Double.HUGE_VAL = true := by
  obtain ⟨sg, ⟨e, he⟩, ⟨m, hm⟩⟩ := x
  have he2 : e < 2047 := by simpa [Double.isFinite] using hx
  have hne : e ≠ 2047 := by omega
  cases sg <;>
    simp [Double.lt, Double.isNaN, Double.HUGE_VAL, Double.key, hne] <;> omega

/-- No double with the sign bit set compares above `0.0`. -/
theorem Double.not_zero_lt_of_sign (x : Double) (hx : x.sign = true) :
    Double.lt Double.zero x = false := by
  obtain ⟨sg, ⟨e, he⟩, ⟨m, hm⟩⟩ := x
  simp only at hx
  subst hx
  by_cases h : e = 2047 ∧ m ≠ 0
  · simp [Double.lt, Double.isNaN, Double.zero, h.1, h.2]
  · simp [Double.lt, Double.isNaN, Double.zero, Double.key]
    intro _
    omega

/-- C9, as the claim states it, fails: the finite sample `-1.0` is below the
initial `min` but not above the initial `max = 0`, and after the first update
`max` is still `0`, not the sample. -/
theorem first_sample_negative_keeps_max :
    (Double.ofInt (-1)).isFinite = true ∧
    Double.lt (Double.ofInt (-1)) sampleStats.reset.min = true ∧
    Double.lt sampleStats.reset.max (Double.ofInt (-1)) = false ∧
    (sampleStats.reset.update Estimator.frozen 0 (Double.ofInt (-1))).max = Double.zero ∧
    (sampleStats.reset.update Estimator.frozen 0 (Double.ofInt (-1))).max ≠ Double.ofInt (-1) := by
  decide

/-- C9, amended: starting from the reset state, every finite sample `x` is below
the initial `min`, so the first update sets `min = x`; it sets `max = x` when `x`
is above the initial `max = 0`, and otherwise, in particular for every negative
sample, leaves `max = 0`. -/
theorem first_sample_sets_min (E : Estimator) (st : stats) (n : Nat) (x : Double)
    (hx : x.isFinite = true) :
    Double.lt x st.reset.min = true ∧
    (st.reset.update E n x).min = x ∧
    (Double.lt st.reset.max x = true → (st.reset.update E n x).max = x) ∧
    (Double.lt st.reset.max x = false → (st.reset.update E n x).max = Double.zero) ∧
    (x.sign = true → (st.reset.update E n x).max = Double.zero) := by
  have h1 : Double.lt x Double.HUGE_VAL = true := Double.lt_HUGE_VAL_of_isFinite x hx
  refine ⟨h1, ?_, ?_, ?_, ?_⟩
  · simp [stats.update, stats.reset, h1]
  · intro h
    have h2 : Double.lt Double.zero x = true := h
    simp [stats.update, stats.reset, h2]
  · intro h
    have h2 : Double.lt Double.zero x = false := h
    simp [stats.update, stats.reset, h2]
  · intro h
    simp [stats.update, stats.reset, Double.not_zero_lt_of_sign x h]

/-- Witness for C9, amended: the finite positive sample `3.0` becomes both `min`
and `max`. -/
theorem first_sample_sets_min_witness :
    (Double.ofInt 3).isFinite = true ∧
    Double.lt (Double.ofInt 3) sampleStats.reset.min = true ∧
    (sampleStats.reset.update Estimator.frozen 0 (Double.ofInt 3)).min = Double.ofInt 3 ∧
    (sampleStats.reset.update Estimator.frozen 0 (Double.ofInt 3)).max = Double.ofInt 3 :=
  ⟨by decide,
   (first_sample_sets_min Estimator.frozen sampleStats 0 (Double.ofInt 3) (by decide)).1,
   (first_sample_sets_min Estimator.frozen sampleStats 0 (Double.ofInt 3) (by decide)).2.1,
   (first_sample_sets_min Estimator.frozen sampleStats 0 (Double.ofInt 3) (by decide)).2.2.1
     (by decide)⟩

/-! ## The modelled `submit` -/

/-- C3: for every scanner log and every `tag_uid` whose length is not 7, `submit`
fails with `InvalidTagLength` and the log afterwards is the log before, so
`scan_data`, `latency_stats`, `num_transactions`, `time_first_tx_s` and
`time_last_tx_s` are unchanged. -/
theorem submit_rejects_bad_tag (CAP : Nat) (E : Estimator) (s : scanner)
    (device_id scan_time recv_time : Nat) (tag_uid : List Nat) (h : tag_uid.length ≠ 7) :
    (submit CAP E s device_id scan_time recv_time tag_uid).err = some Error.InvalidTagLength ∧
    (submit CAP E s device_id scan_time recv_time tag_uid).log = s := by
  simp [submit, h]

/-- Witness for C3: a three-byte tag submitted to `sampleScanner` at capacity 2. -/
theorem submit_rejects_bad_tag_witness :
    [1, 2, 3].length ≠ 7 ∧
    (submit 2 Estimator.frozen sampleScanner 1 120 121 [1, 2, 3]).err
      = some Error.InvalidTagLength ∧
    (submit 2 Estimator.frozen sampleScanner 1 120 121 [1, 2, 3]).log = sampleScanner :=
  ⟨by decide,
   submit_rejects_bad_tag 2 Estimator.frozen sampleScanner 1 120 121 [1, 2, 3] (by decide)⟩

/-- Keeping the most recent `n` of a list never keeps more than `n`. -/
theorem length_mostRecent_le {α : Type} (n : Nat) (l : List α) :
    (mostRecent n l).length ≤ n := by
  simp only [mostRecent, List.length_drop]
  omega

/-- A list of at least `n` elements has exactly `n` most recent ones. -/
theorem length_mostRecent_of_le {α : Type} (n : Nat) (l : List α) (h : n ≤ l.length) :
    (mostRecent n l).length = n := by
  simp only [mostRecent, List.length_drop]
  omega

/-- A list within the bound is its own most recent part. -/
theorem mostRecent_of_length_le {α : Type} (n : Nat) (l : List α) (h : l.length ≤ n) :
    mostRecent n l = l := by
  have h0 : l.length - n = 0 := by omega
  simp [mostRecent, h0]

/-- Truncating before further arrivals does not change what is finally kept. -/
theorem mostRecent_append_mostRecent {α : Type} (n : Nat) (l r : List α) :
    mostRecent n (mostRecent n l ++ r) = mostRecent n (l ++ r) := by
  by_cases h : l.length ≤ n
  · rw [mostRecent_of_length_le n l h]
  · have hk : l.length - n ≤ l.length := by omega
    have hlen : (List.drop (l.length - n) l).length = n := by
      rw [List.length_drop]
      omega
    have e1 : (l ++ r).length - n = (l.length - n) + r.length := by
      rw [List.length_append]
      omega
    have e2 : (List.drop (l.length - n) l ++ r).length - n = r.length := by
      rw [List.length_append, hlen]
      omega
    unfold mostRecent
    rw [e2, e1, ← List.drop_drop, List.drop_append_of_le_length hk]

/-- Once `n` further elements have arrived, none of the earlier ones is kept. -/
theorem mostRecent_append_of_le {α : Type} (n : Nat) (l r : List α) (h : n ≤ r.length) :
    mostRecent n (l ++ r) = mostRecent n r := by
  have e1 : (l ++ r).length - n = l.length + (r.length - n) := by
    rw [List.length_append]
    omega
  unfold mostRecent
  rw [e1, List.drop_append]

/-- An accepted `submit` on a log within a positive capacity stores the most recent
`CAP` of the old events followed by the new one. -/
theorem submit_scan_data (CAP : Nat) (E : Estimator) (hCAP : 0 < CAP) (s : scanner)
    (hs : s.scan_data.length ≤ CAP) (c : Call) (hc : c.accepted = true) :
    (submit CAP E s c.device_id c.scan_time c.recv_time c.tag_uid).log.scan_data =
      mostRecent CAP (s.scan_data ++ [c.event]) := by
  have h7 : c.tag_uid.length = 7 := by simpa [Call.accepted] using hc
  by_cases hfull : s.scan_data.length = CAP
  · have h1 : 1 ≤ s.scan_data.length := by omega
    have e : mostRecent CAP (s.scan_data ++ [c.event]) = s.scan_data.drop 1 ++ [c.event] := by
      have e0 : (s.scan_data ++ [c.event]).length - CAP = 1 := by
        rw [List.length_append, hfull]
        simp
      unfold mostRecent
      rw [e0]
      exact List.drop_append_of_le_length h1
    rw [e]
    simp [submit, h7, hfull, Call.event]
  · have e : mostRecent CAP (s.scan_data ++ [c.event]) = s.scan_data ++ [c.event] := by
      apply mostRecent_of_length_le
      rw [List.length_append]
      simp
      omega
    rw [e]
    simp [submit, h7, hfull, Call.event]

/-- A rejected `submit` leaves the log as it was. -/
theorem submit_log_of_not_accepted (CAP : Nat) (E : Estimator) (s : scanner) (c : Call)
    (hc : c.accepted = false) :
    (submit CAP E s c.device_id c.scan_time c.recv_time c.tag_uid).log = s := by
  have h7 : c.tag_uid.length ≠ 7 := by simpa [Call.accepted] using hc
  simp [submit, h7]

/-- The events after a sequence of calls are the most recent `CAP` of the events
before followed by the accepted arrivals. -/
theorem run_scan_data (CAP : Nat) (E : Estimator) (hCAP : 0 < CAP) (cs : List Call) :
    ∀ s : scanner, s.scan_data.length ≤ CAP →
      (run CAP E s cs).scan_data = mostRecent CAP (s.scan_data ++ arrivals cs) := by
  induction cs with
  | nil =>
    intro s hs
    simp [run, arrivals, mostRecent_of_length_le CAP s.scan_data hs]
  | cons c cs ih =>
    intro s hs
    cases hc : c.accepted with
    | false =>
      simp only [run, submit_log_of_not_accepted CAP E s c hc]
      rw [ih s hs]
      simp [arrivals, List.filter_cons, hc]
    | true =>
      have hstep := submit_scan_data CAP E hCAP s hs c hc
      have hle : (submit CAP E s c.device_id c.scan_time c.recv_time c.tag_uid).log.scan_data.length
          ≤ CAP := by
        rw [hstep]
        exact length_mostRecent_le CAP _
      simp only [run]
      rw [ih _ hle, hstep, mostRecent_append_mostRecent]
      simp [arrivals, List.filter_cons, hc]

/-- C2: with a positive capacity and a log that starts within it, after every call
of any sequence of `submit` calls `len(scan_data) <= CAP`; the retained events are
the most recent `CAP` of all events that arrived, in arrival order; once `CAP` or
more calls were accepted they are exactly the most recent `CAP` accepted
submissions; and an accepted call on a full log evicts the event at index 0. -/
theorem submit_keeps_most_recent (CAP : Nat) (E : Estimator) (hCAP : 0 < CAP) (s : scanner)
    (hs : s.scan_data.length ≤ CAP) (cs : List Call) :
    (∀ k : Nat, (run CAP E s (cs.take k)).scan_data.length ≤ CAP) ∧
    (run CAP E s cs).scan_data = mostRecent CAP (s.scan_data ++ arrivals cs) ∧
    (CAP ≤ (arrivals cs).length →
      (run CAP E s cs).scan_data = mostRecent CAP (arrivals cs) ∧
      (run CAP E s cs).scan_data.length = CAP) ∧
    (∀ c : Call, c.accepted = true → s.scan_data.length = CAP →
      (submit CAP E s c.device_id c.scan_time c.recv_time c.tag_uid).log.scan_data =
        s.scan_data.eraseIdx 0 ++ [c.event]) := by
  refine ⟨?_, run_scan_data CAP E hCAP cs s hs, ?_, ?_⟩
  · intro k
    rw [run_scan_data CAP E hCAP (cs.take k) s hs]
    exact length_mostRecent_le CAP _
  · intro h
    rw [run_scan_data CAP E hCAP cs s hs, mostRecent_append_of_le CAP _ _ h]
    exact ⟨rfl, length_mostRecent_of_le CAP _ h⟩
  · intro c hc hfull
    have h7 : c.tag_uid.length = 7 := by simpa [Call.accepted] using hc
    simp [submit, h7, hfull, Call.event]

/-- Witness for C2: at capacity 3, five calls (one rejected) on a new log leave the
second, third and fourth accepted submissions, in arrival order. -/
theorem submit_keeps_most_recent_witness :
    0 < 3 ∧ (scanner.ctor sampleScanner).scan_data.length ≤ 3 ∧
    (run 3 Estimator.frozen (scanner.ctor sampleScanner) sampleCalls).scan_data =
      [⟨0, 20, 1, sampleTag⟩, ⟨0, 30, 2, sampleTag⟩, ⟨0, 40, 2, sampleTag⟩] ∧
    (run 3 Estimator.frozen (scanner.ctor sampleScanner) sampleCalls).scan_data.length = 3 :=
  ⟨by decide, by decide,
   ((submit_keeps_most_recent 3 Estimator.frozen (by decide) (scanner.ctor sampleScanner)
      (by decide) sampleCalls).2.1).trans (by decide),
   ((submit_keeps_most_recent 3 Estimator.frozen (by decide) (scanner.ctor sampleScanner)
      (by decide) sampleCalls).2.2.1 (by decide)).2⟩

/-! ## Reachable logs and the capacity invariant -/

/-- A reachable log at a positive capacity holds `min n CAP` events and counts
`n` modulo `2^32`, where `n` submissions were accepted since the last reset. -/
theorem reachable_shape (CAP : Nat) (E : Estimator) (hCAP : 0 < CAP) (n : Nat) (s : scanner)
    (h : Reachable CAP E n s) :
    s.scan_data.length = min n CAP ∧ s.num_transactions = n % 4294967296 := by
  induction h with
  | ctor raw => simp [scanner.ctor, scanner.reset_state]
  | reset_state n s _ _ => simp [scanner.reset_state]
  | submit n s c _ ih =>
    obtain ⟨hlen, hnum⟩ := ih
    cases hc : c.accepted with
    | false =>
      rw [submit_log_of_not_accepted CAP E s c hc]
      simpa using ⟨hlen, hnum⟩
    | true =>
      have hs : s.scan_data.length ≤ CAP := by
        rw [hlen]
        exact Nat.min_le_right n CAP
      have h7 : c.tag_uid.length = 7 := by simpa [Call.accepted] using hc
      have hn : (submit CAP E s c.device_id c.scan_time c.recv_time c.tag_uid).log.num_transactions
          = (s.num_transactions + 1) % 4294967296 := by
        simp [submit, h7]
      constructor
      · rw [submit_scan_data CAP E hCAP s hs c hc]
        simp only [mostRecent, List.length_drop, List.length_append, List.length_singleton,
          if_true]
        rw [hlen]
        simp only [Nat.min_def]
        split <;> split <;> omega
      · rw [hn, hnum]
        simp only [if_true]
        omega

/-- A sequence of calls leads from a reachable log to a reachable log. -/
theorem reachable_run (CAP : Nat) (E : Estimator) (cs : List Call) :
    ∀ (n : Nat) (s : scanner), Reachable CAP E n s →
      Reachable CAP E (n + (arrivals cs).length) (run CAP E s cs) := by
  induction cs with
  | nil =>
    intro n s h
    simpa [run, arrivals] using h
  | cons c cs ih =>
    intro n s h
    have h1 := ih _ _ (Reachable.submit n s c h)
    cases hc : c.accepted with
    | false =>
      simp only [hc] at h1
      simpa [run, arrivals, List.filter_cons, hc] using h1
    | true =>
      simp only [hc, if_true] at h1
      have e : n + (arrivals (c :: cs)).length = n + 1 + (arrivals cs).length := by
        simp [arrivals, List.filter_cons, hc]
        omega
      rw [e]
      simpa [run] using h1

/-- Submitting `sampleCall` once more at capacity 1 evicts the stored copy and
advances the 32-bit counter. -/
theorem submit_repeatedLog (k : Nat) :
    (submit 1 Estimator.frozen (repeatedLog k) sampleCall.device_id sampleCall.scan_time
      sampleCall.recv_time sampleCall.tag_uid).log = repeatedLog (k + 1) := by
  have hmin : Double.lt (Double.ofInt 10) (Double.ofInt 10) = false := by decide
  simp only [submit, repeatedLog, sampleCall, sampleTag, Call.event, stats.update,
    Estimator.frozen]
  simp [hmin]

/-- The log `repeatedLog k` is reached by `k + 1` accepted submissions. -/
theorem reachable_repeatedLog (k : Nat) :
    Reachable 1 Estimator.frozen (k + 1) (repeatedLog k) := by
  induction k with
  | zero =>
    have h0 : Reachable 1 Estimator.frozen 0 (scanner.ctor sampleScanner) :=
      Reachable.ctor sampleScanner
    have h := Reachable.submit 0 _ sampleCall h0
    have e : (submit 1 Estimator.frozen (scanner.ctor sampleScanner) sampleCall.device_id
        sampleCall.scan_time sampleCall.recv_time sampleCall.tag_uid).log = repeatedLog 0 := by
      decide
    rw [e] at h
    exact h
  | succ k ih =>
    have h := Reachable.submit (k + 1) _ sampleCall ih
    rw [submit_repeatedLog k] at h
    exact h

/-- C4, as the claim states it, fails once `submit` is among the operations: at
capacity 0 one accepted submission to a new scanner leaves one event, more than
the capacity; and at capacity 1 the log reached by `2^32` accepted submissions
holds one event while the 32-bit `num_transactions` has wrapped to 0. -/
theorem reachable_exceeds_capacity :
    (Reachable 0 Estimator.frozen 1
        (submit 0 Estimator.frozen (scanner.ctor sampleScanner) 1 0 10 sampleTag).log ∧
      (submit 0 Estimator.frozen (scanner.ctor sampleScanner) 1 0 10 sampleTag).log.scan_data.length
        = 1 ∧
      ¬ (submit 0 Estimator.frozen (scanner.ctor sampleScanner) 1 0 10 sampleTag).log.scan_data.length
        ≤ 0) ∧
    (Reachable 1 Estimator.frozen 4294967296 (repeatedLog 4294967295) ∧
      (repeatedLog 4294967295).scan_data.length = 1 ∧
      (repeatedLog 4294967295).num_transactions = 0 ∧
      ¬ (repeatedLog 4294967295).scan_data.length ≤ (repeatedLog 4294967295).num_transactions) := by
  have h0 : Reachable 0 Estimator.frozen 0 (scanner.ctor sampleScanner) :=
    Reachable.ctor sampleScanner
  refine ⟨⟨Reachable.submit 0 _ sampleCall h0, by decide, by decide⟩,
    ⟨reachable_repeatedLog 4294967295, by decide, by decide, by decide⟩⟩

/-- C4, amended: for every capacity `CAP >= 1`, every scanner record reachable
from a newly constructed one by the constructor, `reset_state` and `submit`
satisfies `len(scan_data) <= CAP`, and `num_transactions >= len(scan_data)` as long
as fewer than `2^32` submissions were accepted since the construction or the last
reset; for every capacity `CAP >= 0` the constructor's result is reachable and
satisfies both, and `reset_state` re-establishes both from any record. -/
theorem reachable_within_capacity (CAP : Nat) (E : Estimator) :
    (0 < CAP → ∀ (n : Nat) (s : scanner), Reachable CAP E n s →
      s.scan_data.length ≤ CAP ∧
      (n < 4294967296 → s.scan_data.length ≤ s.num_transactions)) ∧
    (∀ raw : scanner, Reachable CAP E 0 (scanner.ctor raw) ∧
      (scanner.ctor raw).scan_data.length ≤ CAP ∧
      (scanner.ctor raw).scan_data.length ≤ (scanner.ctor raw).num_transactions) ∧
    (∀ s : scanner, s.reset_state.scan_data.length ≤ CAP ∧
      s.reset_state.scan_data.length ≤ s.reset_state.num_transactions) := by
  refine ⟨?_, ?_, ?_⟩
  · intro hCAP n s h
    obtain ⟨hlen, hnum⟩ := reachable_shape CAP E hCAP n s h
    refine ⟨?_, ?_⟩
    · rw [hlen]
      exact Nat.min_le_right n CAP
    · intro hn
      rw [hlen, hnum, Nat.mod_eq_of_lt hn]
      exact Nat.min_le_left n CAP
  · intro raw
    exact ⟨Reachable.ctor raw, by simp [scanner.ctor, scanner.reset_state]⟩
  · intro s
    simp [scanner.reset_state]

/-- Witness for C4, amended: at capacity 3 the log reached from a new scanner by
`sampleCalls`, four of them accepted, holds three events and counts four. -/
theorem reachable_within_capacity_witness :
    0 < 3 ∧
    Reachable 3 Estimator.frozen 4 (run 3 Estimator.frozen (scanner.ctor sampleScanner) sampleCalls) ∧
    (run 3 Estimator.frozen (scanner.ctor sampleScanner) sampleCalls).scan_data.length = 3 ∧
    (run 3 Estimator.frozen (scanner.ctor sampleScanner) sampleCalls).num_transactions = 4 ∧
    (run 3 Estimator.frozen (scanner.ctor sampleScanner) sampleCalls).scan_data.length ≤ 3 ∧
    (run 3 Estimator.frozen (scanner.ctor sampleScanner) sampleCalls).scan_data.length ≤
      (run 3 Estimator.frozen (scanner.ctor sampleScanner) sampleCalls).num_transactions :=
  ⟨by decide,
   reachable_run 3 Estimator.frozen sampleCalls 0 _ (Reachable.ctor sampleScanner),
   by decide, by decide,
   ((reachable_within_capacity 3 Estimator.frozen).1 (by decide) 4 _
      (reachable_run 3 Estimator.frozen sampleCalls 0 _ (Reachable.ctor sampleScanner))).1,
   ((reachable_within_capacity 3 Estimator.frozen).1 (by decide) 4 _
      (reachable_run 3 Estimator.frozen sampleCalls 0 _ (Reachable.ctor sampleScanner))).2
      (by decide)⟩

end Rfid
